import Mathlib

/-!
Verification development for the plant-tracker repository: a bilingual
(English/Japanese) plant inventory with a React client
(`src/frontend/src/App.js`), a small translation helper, and a PostgreSQL
schema (`src/backend/scripts/migrations/001_create_locations_families.sql`).
The frontend validation, filtering and translation functions are embedded
directly from the JavaScript source; the backend repository operations
(dimension resolve, plant create/update, sorted listing), whose Flask code is
not in the source tree, are modelled from the specification and marked as
such in their doc comments.
-/

namespace PlantTracker

/-! ## JavaScript string primitives -/

/-- Whitespace characters removed by JavaScript `String.prototype.trim`
(ASCII subset; the source strings of interest are ASCII). -/
def isJsWhitespace (c : Char) : Bool :=
  c == ' ' || c == '\t' || c == '\n' || c == '\r'

/-- Predicate `blank s` is true exactly when the JS expression `!s.trim()` is true,
i.e. `s` trims to the empty string: every character is whitespace. -/
def blank (s : String) : Bool :=
  s.data.all isJsWhitespace

/-- JS truthiness of a string: `""` is falsy, every other string truthy. -/
def jsTruthyStr (s : String) : Bool :=
  !s.isEmpty

/-- JS truthiness of a nullable string value (`null` and `""` are falsy). -/
def jsTruthyOptStr : Option String → Bool
  | none => false
  | some s => !s.isEmpty

/-- Character-list infix test: `listIncludes hay needle` is true iff
`needle` occurs contiguously inside `hay` (the semantics of JS
`hay.includes(needle)` on the underlying character sequences). -/
def listIncludes [BEq α] (hay needle : List α) : Bool :=
  match hay with
  | [] => needle.isEmpty
  | _ :: rest => needle.isPrefixOf hay || listIncludes rest needle

/-- Lower-cased character sequence of a string, as in JS
`s.toLowerCase()` (ASCII case mapping). -/
def lowerChars (s : String) : List Char :=
  s.data.map Char.toLower

/-- JS `hay.toLowerCase().includes(needle.toLowerCase())`. -/
def includesCI (hay needle : String) : Bool :=
  listIncludes (lowerChars hay) (lowerChars needle)

/-- The regex test `/^\d{4}-\d{2}-\d{2}$/.test s` from `validateEdit` in
`src/frontend/src/App.js`: exactly ten characters, digits in positions
0–3, 5–6, 8–9 and dashes in positions 4 and 7.  Note this is a shape
check only; it does not inspect month or day ranges. -/
def matchesDatePattern (s : String) : Bool :=
  match s.data with
  | [y1, y2, y3, y4, d1, m1, m2, d2, a1, a2] =>
    y1.isDigit && y2.isDigit && y3.isDigit && y4.isDigit &&
    d1 == '-' && m1.isDigit && m2.isDigit && d2 == '-' &&
    a1.isDigit && a2.isDigit
  | _ => false

/-- Strict ISO calendar-date bounds used by the specification's notion of a
valid date (the claim's wording, not the code's): the string must have the
`YYYY-MM-DD` shape and its month must lie in 1..12 and its day in 1..31.
Any genuinely valid calendar date satisfies these bounds, so a string
failing them is certainly not a valid strict ISO calendar date. -/
def withinCalendarBounds (s : String) : Bool :=
  matchesDatePattern s &&
  (match s.data with
   | [_, _, _, _, _, m1, m2, _, a1, a2] =>
     let m := (m1.toNat - 48) * 10 + (m2.toNat - 48)
     let d := (a1.toNat - 48) * 10 + (a2.toNat - 48)
     1 ≤ m && m ≤ 12 && 1 ≤ d && d ≤ 31
   | _ => false)

/-! ## Frontend state: language and form records -/

/-- The UI language toggle state (`language` in `App.js`). -/
inductive Lang
  | en
  | ja
deriving DecidableEq

/-- The add-form state `formData` in `App.js`. `image_path` holds the chosen
file (a JS `File` object, always truthy) or `null`; we record the file name. -/
structure AddForm where
  plant_name_en : String
  plant_class_en : String
  plant_name_ja : String
  plant_class_ja : String
  plant_date : String
  botanical_name : String
  location : String
  image_path : Option String
deriving DecidableEq

/-- The edit-modal state `editFormData` in `App.js`. Its `image_path` is
`null` initially and afterwards the text of a url input, so an empty
string is possible and falsy. -/
structure EditForm where
  plant_id : Nat
  plant_name_en : String
  plant_class_en : String
  plant_name_ja : String
  plant_class_ja : String
  plant_date : String
  botanical_name : String
  location : String
  image_path : Option String
deriving DecidableEq

/-- Embedding of `validateAdd` from `src/frontend/src/App.js` lines 124–164.  The JS
function reports the first failing check through `setMessage` and returns
`false`, or returns `true`; we return `some errorText` respectively `none`. -/
def validateAdd (f : AddForm) : Option String :=
  if blank f.plant_name_en then some "English name is required."
  else if blank f.plant_class_en then some "English class is required."
  else if blank f.plant_name_ja then some "Japanese name is required."
  else if blank f.plant_class_ja then some "Japanese class is required."
  else if blank f.botanical_name then some "Botanical name is required."
  else if blank f.location then some "Location is required."
  else if f.image_path.isNone then some "Image is required."
  else none

/-- Embedding of `validateEdit` from `src/frontend/src/App.js` lines 166–221, including
the date-format regex check on lines 209–219.  Same encoding of the
`setMessage`/return-value protocol as `validateAdd`. -/
def validateEdit (f : EditForm) (language : Lang) : Option String :=
  let en := language == Lang.en
  if en && blank f.plant_name_en then some "English name is required."
  else if en && blank f.plant_class_en then some "English class is required."
  else if (!en) && blank f.plant_name_ja then some "Japanese name is required."
  else if (!en) && blank f.plant_class_ja then some "Japanese class is required."
  else if blank f.botanical_name then some "Botanical name is required."
  else if blank f.location then some "Location is required."
  else if !(jsTruthyOptStr f.image_path) then some "Image is required."
  else if jsTruthyStr f.plant_date && !(matchesDatePattern f.plant_date) then
    some "Invalid date format (YYYY-MM-DD)."
  else none

/-- Embedding of `handleSubmit` in `App.js` (lines 223–270), up to the network boundary:
when `validateAdd` fails it returns before building the request, so no
POST is issued; otherwise the form is submitted. `none` means no network
call happened. -/
def handleSubmit (f : AddForm) : Option AddForm :=
  if (validateAdd f).isSome then none else some f

/-- One multipart PUT request issued by `handleEditSave` (lines 307–346):
the four name/class fields, botanical name, location and image are always
appended; `plant_date` is appended only when truthy. -/
structure PutRequest where
  plant_id : Nat
  plant_name_en : String
  plant_class_en : String
  plant_name_ja : String
  plant_class_ja : String
  botanical_name : String
  location : String
  image_path : Option String
  plant_date : Option String
deriving DecidableEq

/-- Embedding of `handleEditSave` in `App.js` (lines 307–346), up to the network boundary:
returns `none` (no PUT issued) when `validateEdit` fails, otherwise the
request body it sends. -/
def handleEditSave (f : EditForm) (language : Lang) : Option PutRequest :=
  if (validateEdit f language).isSome then none
  else
    some { plant_id := f.plant_id
           plant_name_en := f.plant_name_en
           plant_class_en := f.plant_class_en
           plant_name_ja := f.plant_name_ja
           plant_class_ja := f.plant_class_ja
           botanical_name := f.botanical_name
           location := f.location
           image_path := f.image_path
           plant_date := if jsTruthyStr f.plant_date then some f.plant_date else none }

/-- Which of the paired edit-modal inputs is being typed into
(`['plant_name', 'plant_class']` in the JSX loop at lines 651–689). -/
inductive EditField
  | name
  | cls
deriving DecidableEq

/-- The onChange handler of a name/class input in the edit modal
(lines 671–678): the field update fires only when the input's language
equals the active language (`if (isCurrentLang)`); otherwise the state is
untouched (and the input is additionally rendered `disabled`). -/
def editFieldChange (language lang : Lang) (key : EditField) (v : String)
    (f : EditForm) : EditForm :=
  if lang == language then
    match key, lang with
    | .name, .en => { f with plant_name_en := v }
    | .name, .ja => { f with plant_name_ja := v }
    | .cls, .en => { f with plant_class_en := v }
    | .cls, .ja => { f with plant_class_ja := v }
  else f

/-! ## Frontend list filtering -/

/-- A plant record as received by the client (fields may be absent in the
JSON, hence `Option`). Only the fields the search filter reads are kept. -/
structure PlantView where
  plant_id : Nat
  plant_name_en : Option String
  plant_class_en : Option String
  plant_name_ja : Option String
  plant_class_ja : Option String
deriving DecidableEq

/-- The dynamic property access `plant[`plant_name_${language}`]`. -/
def nameOf (p : PlantView) : Lang → Option String
  | .en => p.plant_name_en
  | .ja => p.plant_name_ja

/-- The dynamic property access `plant[`plant_class_${language}`]`. -/
def classOf (p : PlantView) : Lang → Option String
  | .en => p.plant_class_en
  | .ja => p.plant_class_ja

/-- Optional-chained `field?.toLowerCase().includes(q.toLowerCase())`:
an absent field short-circuits to `undefined`, which is falsy. -/
def optMatch (o : Option String) (q : String) : Bool :=
  match o with
  | none => false
  | some s => includesCI s q

/-- Embedding of `filteredPlants` from `src/frontend/src/App.js` lines 348–357. -/
def filteredPlants (plants : List PlantView) (language : Lang) (q : String) :
    List PlantView :=
  plants.filter (fun p => optMatch (nameOf p language) q || optMatch (classOf p language) q)

/-! ## Translation helper -/

/-- Embedding of `translateToJa` from the translation utility module: arguments model the
ambient state (the `localStorage` cache keyed by source string, and the
outcome of the external POST to the translation service). The result is the
returned string together with the list of cache writes performed. On a cache
hit the cached value is returned; on a miss the service is called, its
translation cached and returned; if the service call throws, the error is
caught and the original text returned. -/
def translateToJa (cache : String → Option String) (service : Except Unit String)
    (text : String) : String × List (String × String) :=
  match cache text with
  | some cached => (cached, [])
  | none =>
    match service with
    | .ok t => (t, [(text, t)])
    | .error _ => (text, [])

/-! ## Backend data layer

The Flask repository code is not in the source tree; only the schema
migration `001_create_locations_families.sql` is.  The operations below are
therefore modelled from the specification (§4.1, §4.3), on top of the
schema's declared constraints (SERIAL primary keys, `UNIQUE` on each
dimension language column, `UNIQUE` on `plants.botanical_name` and
`plants.image_path`).
-/

instance {ε α : Type} [DecidableEq ε] [DecidableEq α] : DecidableEq (Except ε α)
  | .ok a, .ok b =>
    if h : a = b then isTrue (by rw [h]) else isFalse (by simp [h])
  | .ok _, .error _ => isFalse (by simp)
  | .error _, .ok _ => isFalse (by simp)
  | .error a, .error b =>
    if h : a = b then isTrue (by rw [h]) else isFalse (by simp [h])

/-- A row of one of the three dimension tables (`locations`, `families`,
`plant_names` in the migration): a SERIAL id and a bilingual string pair,
each language column declared `NOT NULL UNIQUE`. -/
structure DimRow where
  id : Nat
  name_en : String
  name_ja : String
deriving DecidableEq

/-- A dimension table state: its rows plus the next SERIAL value. -/
structure DimStore where
  rows : List DimRow
  nextId : Nat
deriving DecidableEq

/-- Error taxonomy of the repository layer (spec §7). -/
inductive RepoError
  | conflict
  | notFound
deriving DecidableEq

/-- The `UNIQUE` constraints on a dimension table: no two rows share a
`name_en` and no two share a `name_ja`. -/
def DimStore.Uniq (s : DimStore) : Prop :=
  s.rows.Pairwise (fun a b => a.name_en ≠ b.name_en ∧ a.name_ja ≠ b.name_ja)

instance (s : DimStore) : Decidable s.Uniq :=
  inferInstanceAs (Decidable (s.rows.Pairwise fun a b : DimRow =>
    a.name_en ≠ b.name_en ∧ a.name_ja ≠ b.name_ja))

/-- Modelled from the spec: the Dimension Store operation
`resolve(name_en, name_ja) -> dimension_id` (§4.1), whose backend code is
absent from the tree.  Look up a row whose pair exactly equals the input
and return its id; if none exists but some row collides on either unique
language column, fail with `ConflictError`; otherwise insert a fresh row
and return its new id.  The returned store is the table after the call
(unchanged on lookup hit and on conflict). -/
def DimStore.resolve (s : DimStore) (en ja : String) :
    Except RepoError Nat × DimStore :=
  match s.rows.find? (fun r => r.name_en == en && r.name_ja == ja) with
  | some r => (.ok r.id, s)
  | none =>
    if s.rows.any (fun r => r.name_en == en || r.name_ja == ja) then
      (.error .conflict, s)
    else
      (.ok s.nextId, ⟨s.rows ++ [⟨s.nextId, en, ja⟩], s.nextId + 1⟩)

/-- Number of rows of a dimension table holding exactly the given pair. -/
def DimStore.countPair (s : DimStore) (en ja : String) : Nat :=
  (s.rows.filter (fun r => r.name_en == en && r.name_ja == ja)).length

/-- A stored plant row (post-migration schema: botanical name, date and
image path all `NOT NULL`, dimension references by id). The date is kept
as its ISO `YYYY-MM-DD` string, which compares lexicographically in date
order. -/
structure Plant where
  id : Nat
  botanical_name : String
  plant_date : String
  image_path : String
  location_id : Nat
  family_id : Nat
  plant_name_id : Nat
deriving DecidableEq

/-- The plants table state: rows plus the next SERIAL value. -/
structure PlantsTable where
  rows : List Plant
  nextId : Nat
deriving DecidableEq

/-- The `unique_botanical_name` and `unique_image_path` constraints from the
migration: no two plant rows share a botanical name or an image path. -/
def PlantsTable.Uniq (t : PlantsTable) : Prop :=
  t.rows.Pairwise (fun a b =>
    a.botanical_name ≠ b.botanical_name ∧ a.image_path ≠ b.image_path)

instance (t : PlantsTable) : Decidable t.Uniq :=
  inferInstanceAs (Decidable (t.rows.Pairwise fun a b : Plant =>
    a.botanical_name ≠ b.botanical_name ∧ a.image_path ≠ b.image_path))

/-- Field values for a create, after validation and dimension resolution. -/
structure PlantFields where
  botanical_name : String
  plant_date : String
  image_path : String
  location_id : Nat
  family_id : Nat
  plant_name_id : Nat
deriving DecidableEq

/-- Modelled from the spec: the Plant Repository `create` (§4.3), whose
backend code is absent from the tree.  A botanical-name or image-path
duplicate violates the corresponding `UNIQUE` constraint and fails with
`ConflictError` before any row is written; otherwise the row is inserted
with a fresh id. -/
def PlantsTable.create (t : PlantsTable) (f : PlantFields) :
    Except RepoError Nat × PlantsTable :=
  if t.rows.any (fun r => r.botanical_name == f.botanical_name) then
    (.error .conflict, t)
  else if t.rows.any (fun r => r.image_path == f.image_path) then
    (.error .conflict, t)
  else
    (.ok t.nextId,
     ⟨t.rows ++ [⟨t.nextId, f.botanical_name, f.plant_date, f.image_path,
                 f.location_id, f.family_id, f.plant_name_id⟩],
      t.nextId + 1⟩)

/-- A set of update fields: `none` means the field was not supplied in the
request (spec §4.3: update is a patch, only supplied fields change). -/
structure UpdateInput where
  botanical_name : Option String
  plant_date : Option String
  image_path : Option String
  location_id : Option Nat
  family_id : Option Nat
  plant_name_id : Option Nat
deriving DecidableEq

/-- An update input supplying only `plant_date`. -/
def onlyDate (d : String) : UpdateInput :=
  ⟨none, some d, none, none, none, none⟩

/-- Patch one stored row with the supplied fields; absent fields keep
their stored value. -/
def applyUpdate (r : Plant) (u : UpdateInput) : Plant :=
  { id := r.id
    botanical_name := u.botanical_name.getD r.botanical_name
    plant_date := u.plant_date.getD r.plant_date
    image_path := u.image_path.getD r.image_path
    location_id := u.location_id.getD r.location_id
    family_id := u.family_id.getD r.family_id
    plant_name_id := u.plant_name_id.getD r.plant_name_id }

/-- Modelled from the spec: the Plant Repository `update` (§4.3), whose
backend code is absent from the tree.  Fails with `NotFoundError` when the
id is absent; otherwise patches exactly the row with that id, leaving every
other row untouched. -/
def PlantsTable.update (t : PlantsTable) (pid : Nat) (u : UpdateInput) :
    Except RepoError Unit × PlantsTable :=
  if t.rows.any (fun r => r.id == pid) then
    (.ok (), ⟨t.rows.map (fun r => if r.id == pid then applyUpdate r u else r), t.nextId⟩)
  else
    (.error .notFound, t)

/-- The `by_date` ordering (spec §4.3): a row sorts before another when its
date is later, or the dates are equal and its id is larger — i.e. `ORDER BY
plant_date DESC, id DESC`. -/
def byDateDesc (a b : Plant) : Prop :=
  b.plant_date < a.plant_date ∨ (b.plant_date = a.plant_date ∧ b.id ≤ a.id)

instance : DecidableRel byDateDesc := fun a b => by
  unfold byDateDesc; infer_instance

instance : IsTotal Plant byDateDesc where
  total a b := by
    rcases lt_trichotomy a.plant_date b.plant_date with h | h | h
    · exact Or.inr (Or.inl h)
    · rcases Nat.le_total a.id b.id with h' | h'
      · exact Or.inr (Or.inr ⟨h, h'⟩)
      · exact Or.inl (Or.inr ⟨h.symm, h'⟩)
    · exact Or.inl (Or.inl h)

instance : IsTrans Plant byDateDesc where
  trans a b c hab hbc := by
    rcases hab with h1 | ⟨h1, h1'⟩
    · rcases hbc with h2 | ⟨h2, _⟩
      · exact Or.inl (lt_trans h2 h1)
      · exact Or.inl (h2 ▸ h1)
    · rcases hbc with h2 | ⟨h2, h2'⟩
      · exact Or.inl (h1 ▸ h2)
      · exact Or.inr ⟨h2.trans h1, h2'.trans h1'⟩

/-- Modelled from the spec: `list(by_date)` (§4.3), whose backend code is
absent from the tree — the rows ordered by `plant_date` descending with
ties broken by id descending. -/
def PlantsTable.listByDate (t : PlantsTable) : List Plant :=
  t.rows.insertionSort byDateDesc

/-! ## Helper lemmas -/

theorem dimUniq_symm : Symmetric (fun a b : DimRow =>
    a.name_en ≠ b.name_en ∧ a.name_ja ≠ b.name_ja) :=
  fun _ _ h => ⟨h.1.symm, h.2.symm⟩

/-- Under the unique constraint on `name_en`, two rows sharing a `name_en`
are the same row. -/
theorem eq_of_nameEn_eq {s : DimStore} (hU : s.Uniq) {a b : DimRow}
    (ha : a ∈ s.rows) (hb : b ∈ s.rows) (h : a.name_en = b.name_en) : a = b := by
  by_contra hne
  exact (List.Pairwise.forall dimUniq_symm hU ha hb hne).1 h

/-- Under the unique constraints, a table containing a row with a given
pair contains exactly one row with that pair. -/
theorem countPair_eq_one {s : DimStore} {en ja : String} (hU : s.Uniq)
    {r : DimRow} (hr : r ∈ s.rows) (hen : r.name_en = en) (hja : r.name_ja = ja) :
    s.countPair en ja = 1 := by
  have hmem : r ∈ s.rows.filter (fun x => x.name_en == en && x.name_ja == ja) :=
    List.mem_filter.mpr ⟨hr, by simp [hen, hja]⟩
  have hpw := List.Pairwise.sublist
    (List.filter_sublist (p := fun x => x.name_en == en && x.name_ja == ja) s.rows) hU
  unfold DimStore.countPair
  rcases hfl : s.rows.filter (fun x => x.name_en == en && x.name_ja == ja) with
    _ | ⟨a, _ | ⟨b, tl⟩⟩
  · rw [hfl] at hmem; cases hmem
  · rw [hfl]
    rfl
  · exfalso
    rw [hfl] at hpw
    have hab := (List.pairwise_cons.mp hpw).1 b (by simp)
    have hamem : a ∈ s.rows.filter (fun x => x.name_en == en && x.name_ja == ja) := by
      rw [hfl]; simp
    have hbmem : b ∈ s.rows.filter (fun x => x.name_en == en && x.name_ja == ja) := by
      rw [hfl]; simp
    have hapred := (List.mem_filter.mp hamem).2
    have hbpred := (List.mem_filter.mp hbmem).2
    simp only [Bool.and_eq_true, beq_iff_eq] at hapred hbpred
    exact hab.1 (hapred.1.trans hbpred.1.symm)

/-! ## Claim theorems: the Dimension Store -/

/-- Claim C2: dimension resolve is find-or-create and idempotent.  Under the
unique constraints, resolving a pair that already exists returns the
existing row's id and leaves the store unchanged; and after any successful
resolve, resolving the same pair again returns the same id without change,
the store then holding exactly one row with that pair. -/
theorem C2_resolve_find_or_create (s : DimStore) (en ja : String) (hU : s.Uniq) :
    (∀ r ∈ s.rows, r.name_en = en → r.name_ja = ja →
        s.resolve en ja = (.ok r.id, s)) ∧
    (∀ i s', s.resolve en ja = (.ok i, s') →
        s'.resolve en ja = (.ok i, s') ∧ s'.countPair en ja = 1) := by
  constructor
  · intro r hr hen hja
    rcases hf : s.rows.find? (fun x => x.name_en == en && x.name_ja == ja) with _ | r'
    · exfalso
      have := List.find?_eq_none.mp hf r hr
      simp [hen, hja] at this
    · have hp := List.find?_some hf
      have hm := List.mem_of_find?_eq_some hf
      simp only [Bool.and_eq_true, beq_iff_eq] at hp
      have heq : r' = r := eq_of_nameEn_eq hU hm hr (hp.1.trans hen.symm)
      unfold DimStore.resolve
      rw [hf, heq]
  · intro i s' hres
    unfold DimStore.resolve at hres
    rcases hf : s.rows.find? (fun x => x.name_en == en && x.name_ja == ja) with _ | r
    · rw [hf] at hres
      rcases ha : s.rows.any (fun x => x.name_en == en || x.name_ja == ja) with _ | _
      · rw [ha] at hres
        simp only [Bool.false_eq_true, if_false, Prod.mk.injEq] at hres
        obtain ⟨hi, hs⟩ := hres
        have hi' : i = s.nextId := by
          cases hi; rfl
        subst hi'
        subst hs
        have hsingle : List.find? (fun x : DimRow => x.name_en == en && x.name_ja == ja)
            [⟨s.nextId, en, ja⟩] = some ⟨s.nextId, en, ja⟩ := by
          apply List.find?_cons_of_pos
          simp
        constructor
        · unfold DimStore.resolve
          simp only [List.find?_append, hf, Option.none_or]
          rw [hsingle]
        · unfold DimStore.countPair
          simp only [List.filter_append]
          rw [List.filter_eq_nil_iff.mpr (List.find?_eq_none.mp hf)]
          simp
      · rw [ha] at hres
        simp at hres
    · rw [hf] at hres
      simp only [Prod.mk.injEq] at hres
      obtain ⟨hi, hs⟩ := hres
      have hi' : i = r.id := by cases hi; rfl
      subst hi'
      subst hs
      have hp := List.find?_some hf
      have hm := List.mem_of_find?_eq_some hf
      simp only [Bool.and_eq_true, beq_iff_eq] at hp
      constructor
      · unfold DimStore.resolve
        rw [hf]
      · exact countPair_eq_one hU hm hp.1 hp.2

/-- Claim C2 witness: resolving the existing pair ("Garden", "庭") in a
one-row store returns id 1 without change, and the pair is stored once. -/
theorem C2_resolve_find_or_create_witness :
    DimStore.resolve ⟨[⟨1, "Garden", "庭"⟩], 2⟩ "Garden" "庭"
      = (.ok 1, ⟨[⟨1, "Garden", "庭"⟩], 2⟩) ∧
    DimStore.countPair ⟨[⟨1, "Garden", "庭"⟩], 2⟩ "Garden" "庭" = 1 := by
  have h := C2_resolve_find_or_create ⟨[⟨1, "Garden", "庭"⟩], 2⟩ "Garden" "庭" (by decide)
  have h1 := h.1 ⟨1, "Garden", "庭"⟩ (by decide) rfl rfl
  exact ⟨h1, (h.2 1 ⟨[⟨1, "Garden", "庭"⟩], 2⟩ h1).2⟩

/-- Claim C8: resolving a pair whose `name_en` matches an existing row while
`name_ja` differs fails with `ConflictError` and leaves the store unchanged. -/
theorem C8_partial_pair_conflict (s : DimStore) (en ja : String) (r : DimRow)
    (hU : s.Uniq) (hr : r ∈ s.rows) (hen : r.name_en = en) (hja : r.name_ja ≠ ja) :
    s.resolve en ja = (.error .conflict, s) := by
  have hf : s.rows.find? (fun x => x.name_en == en && x.name_ja == ja) = none := by
    rw [List.find?_eq_none]
    intro x hx hpx
    simp only [Bool.and_eq_true, beq_iff_eq] at hpx
    have hxr : x = r := eq_of_nameEn_eq hU hx hr (hpx.1.trans hen.symm)
    exact hja (by rw [← hxr]; exact hpx.2)
  have ha : s.rows.any (fun x => x.name_en == en || x.name_ja == ja) = true :=
    List.any_eq_true.mpr ⟨r, hr, by simp [hen]⟩
  unfold DimStore.resolve
  rw [hf, ha]
  rfl

/-- Claim C8 witness: with "Garden"/"庭" stored, resolving ("Garden", "にわ")
is a conflict that leaves the store unchanged. -/
theorem C8_partial_pair_conflict_witness :
    DimStore.resolve ⟨[⟨1, "Garden", "庭"⟩], 2⟩ "Garden" "にわ"
      = (.error .conflict, ⟨[⟨1, "Garden", "庭"⟩], 2⟩) :=
  C8_partial_pair_conflict ⟨[⟨1, "Garden", "庭"⟩], 2⟩ "Garden" "にわ"
    ⟨1, "Garden", "庭"⟩ (by decide) (by decide) rfl (by decide)

/-! ## Claim theorems: the Plant Repository -/

/-- Claim C1: `botanical_name` and `image_path` stay unique across all plant
rows (create preserves the constraint, which holds of the empty table), and
a create duplicating either value fails with `ConflictError`, writes no row
and leaves the table — hence the plant count — unchanged. -/
theorem C1_plant_uniqueness (t : PlantsTable) (f : PlantFields) :
    PlantsTable.Uniq ⟨[], 1⟩ ∧
    (PlantsTable.Uniq t → PlantsTable.Uniq (t.create f).2) ∧
    ((∃ r ∈ t.rows, r.botanical_name = f.botanical_name) →
        t.create f = (.error .conflict, t)) ∧
    ((∃ r ∈ t.rows, r.image_path = f.image_path) →
        t.create f = (.error .conflict, t)) := by
  refine ⟨List.Pairwise.nil, ?_, ?_, ?_⟩
  · intro hU
    unfold PlantsTable.create
    rcases h1 : t.rows.any (fun r => r.botanical_name == f.botanical_name) with _ | _
    · rcases h2 : t.rows.any (fun r => r.image_path == f.image_path) with _ | _
      · simp only [Bool.false_eq_true, if_false]
        rw [PlantsTable.Uniq, List.pairwise_append]
        refine ⟨hU, List.pairwise_singleton _ _, ?_⟩
        intro a ha b hb
        have hb' : b = ⟨t.nextId, f.botanical_name, f.plant_date, f.image_path,
            f.location_id, f.family_id, f.plant_name_id⟩ := by
          simpa using hb
        subst hb'
        have hbn := List.any_eq_false.mp h1 a ha
        have hip := List.any_eq_false.mp h2 a ha
        simp only [beq_iff_eq] at hbn hip
        exact ⟨hbn, hip⟩
      · simp only [Bool.false_eq_true, if_false, if_true]
        exact hU
    · simp only [if_true]
      exact hU
  · intro ⟨r, hr, hbn⟩
    have h1 : t.rows.any (fun r => r.botanical_name == f.botanical_name) = true :=
      List.any_eq_true.mpr ⟨r, hr, by simp [hbn]⟩
    unfold PlantsTable.create
    rw [h1]
    rfl
  · intro ⟨r, hr, hip⟩
    have h2 : t.rows.any (fun r => r.image_path == f.image_path) = true :=
      List.any_eq_true.mpr ⟨r, hr, by simp [hip]⟩
    unfold PlantsTable.create
    rcases h1 : t.rows.any (fun r => r.botanical_name == f.botanical_name) with _ | _
    · rw [h2]
      rfl
    · rfl

/-- Claim C1 witness: creating a plant whose botanical name duplicates the
stored "Rosa" row fails with a conflict and leaves the one-row table as it
was. -/
theorem C1_plant_uniqueness_witness :
    PlantsTable.create ⟨[⟨1, "Rosa", "2024-01-02", "a.png", 1, 1, 1⟩], 2⟩
        ⟨"Rosa", "2024-05-05", "b.png", 1, 1, 1⟩
      = (.error .conflict, ⟨[⟨1, "Rosa", "2024-01-02", "a.png", 1, 1, 1⟩], 2⟩) :=
  (C1_plant_uniqueness ⟨[⟨1, "Rosa", "2024-01-02", "a.png", 1, 1, 1⟩], 2⟩
    ⟨"Rosa", "2024-05-05", "b.png", 1, 1, 1⟩).2.2.1 (by decide)

/-- Claim C7: update is a patch.  Updating an existing id with an input that
supplies only `plant_date` succeeds, and the stored rows afterwards are the
old rows with exactly the target row's `plant_date` replaced: every other
field of that row, every other row, and the id counter are unchanged. -/
theorem C7_update_only_date (t : PlantsTable) (pid : Nat) (d : String) (r : Plant)
    (hr : r ∈ t.rows) (hid : r.id = pid) :
    (t.update pid (onlyDate d)).1 = .ok () ∧
    (t.update pid (onlyDate d)).2.nextId = t.nextId ∧
    (t.update pid (onlyDate d)).2.rows = t.rows.map (fun x =>
      if x.id = pid then
        { id := x.id, botanical_name := x.botanical_name, plant_date := d,
          image_path := x.image_path, location_id := x.location_id,
          family_id := x.family_id, plant_name_id := x.plant_name_id }
      else x) := by
  have ha : t.rows.any (fun x => x.id == pid) = true :=
    List.any_eq_true.mpr ⟨r, hr, by simp [hid]⟩
  refine ⟨?_, ?_, ?_⟩
  · unfold PlantsTable.update
    rw [ha]
    rfl
  · unfold PlantsTable.update
    rw [ha]
    rfl
  · unfold PlantsTable.update
    rw [ha]
    simp only [if_true]
    apply List.map_congr_left
    intro x _
    by_cases h : x.id = pid
    · simp [h, applyUpdate, onlyDate]
    · simp [h]

/-- Claim C7 witness: a date-only update of the stored "Rosa" row changes
only its date. -/
theorem C7_update_only_date_witness :
    (PlantsTable.update ⟨[⟨1, "Rosa", "2024-01-02", "a.png", 1, 1, 1⟩], 2⟩ 1
        (onlyDate "2024-09-09")).2.rows
      = [⟨1, "Rosa", "2024-09-09", "a.png", 1, 1, 1⟩] := by
  have h := (C7_update_only_date ⟨[⟨1, "Rosa", "2024-01-02", "a.png", 1, 1, 1⟩], 2⟩ 1
    "2024-09-09" ⟨1, "Rosa", "2024-01-02", "a.png", 1, 1, 1⟩ (by decide) rfl).2.2
  rw [h]
  decide

/-- Claim C6: the `by_date` listing is a permutation of the stored rows in
which dates never increase and, within equal dates, ids never increase — a
deterministic total ordering of the rows. -/
theorem C6_list_by_date_sorted (t : PlantsTable) :
    (t.listByDate).Pairwise (fun a b =>
      b.plant_date ≤ a.plant_date ∧ (b.plant_date = a.plant_date → b.id ≤ a.id)) ∧
    t.listByDate.Perm t.rows := by
  constructor
  · have hs : List.Pairwise byDateDesc t.listByDate :=
      List.sorted_insertionSort byDateDesc t.rows
    refine hs.imp ?_
    intro a b hab
    rcases hab with h | ⟨h1, h2⟩
    · exact ⟨le_of_lt h, fun he => absurd he.symm (ne_of_gt h)⟩
    · exact ⟨le_of_eq h1, fun _ => h2⟩
  · exact List.perm_insertionSort byDateDesc t.rows

/-- Claim C6 witness: the ordering and permutation facts at a concrete
two-row table. -/
theorem C6_list_by_date_sorted_witness :
    ((⟨[⟨1, "Rosa", "2024-01-02", "a.png", 1, 1, 1⟩,
        ⟨2, "Lily", "2024-03-02", "b.png", 1, 1, 1⟩], 3⟩ :
      PlantsTable).listByDate).Pairwise (fun a b =>
        b.plant_date ≤ a.plant_date ∧ (b.plant_date = a.plant_date → b.id ≤ a.id)) ∧
    (⟨[⟨1, "Rosa", "2024-01-02", "a.png", 1, 1, 1⟩,
       ⟨2, "Lily", "2024-03-02", "b.png", 1, 1, 1⟩], 3⟩ :
      PlantsTable).listByDate.Perm
      [⟨1, "Rosa", "2024-01-02", "a.png", 1, 1, 1⟩,
       ⟨2, "Lily", "2024-03-02", "b.png", 1, 1, 1⟩] :=
  C6_list_by_date_sorted ⟨[⟨1, "Rosa", "2024-01-02", "a.png", 1, 1, 1⟩,
    ⟨2, "Lily", "2024-03-02", "b.png", 1, 1, 1⟩], 3⟩

/-! ## Claim theorems: frontend validation and filtering -/

theorem lang_beq_en_en : (Lang.en == Lang.en) = true := rfl

theorem lang_beq_ja_en : (Lang.ja == Lang.en) = false := rfl

/-- An edit form with every required field filled and
`plant_date = "2024-13-40"`: the concrete input for claim C3. -/
def monthThirteenForm : EditForm :=
  ⟨1, "Oak", "Tree", "オーク", "木", "2024-13-40", "Quercus robur", "Garden",
   some "oak.png"⟩

/-- Claim C3 counterexample: "2024-13-40" is not a valid strict ISO calendar
date (month 13, day 40), yet `validateEdit` reports no error on a form
carrying it and `handleEditSave` proceeds to issue the PUT — the code's
regex checks only the digit shape, not calendar validity. -/
theorem C3_counterexample :
    withinCalendarBounds "2024-13-40" = false ∧
    matchesDatePattern "2024-13-40" = true ∧
    validateEdit monthThirteenForm Lang.en = none ∧
    (handleEditSave monthThirteenForm Lang.en).isSome = true := by decide

/-- Claim C3 as amended: when `plant_date` is present but fails the shape
regex `\d{4}-\d{2}-\d{2}`, update validation fails and no PUT request is
issued; when every other validated field is acceptable, the reported error
is the date-format message.  (Shape-conforming strings with impossible
calendar values, such as "2024-13-40", pass the check — see the
counterexample.) -/
theorem C3_date_shape_validation (f : EditForm) (language : Lang)
    (hpresent : f.plant_date ≠ "")
    (hshape : matchesDatePattern f.plant_date = false) :
    (validateEdit f language).isSome = true ∧
    handleEditSave f language = none ∧
    (blank f.plant_name_en = false → blank f.plant_class_en = false →
     blank f.plant_name_ja = false → blank f.plant_class_ja = false →
     blank f.botanical_name = false → blank f.location = false →
     jsTruthyOptStr f.image_path = true →
     validateEdit f language = some "Invalid date format (YYYY-MM-DD).") := by
  have hne : f.plant_date.isEmpty = false := by
    cases he : f.plant_date.isEmpty
    · rfl
    · exact absurd ((String.isEmpty_iff _).mp he) hpresent
  have hd : (jsTruthyStr f.plant_date && !(matchesDatePattern f.plant_date)) = true := by
    simp [jsTruthyStr, hne, hshape]
  have h1 : (validateEdit f language).isSome = true := by
    rw [Option.isSome_iff_ne_none]
    intro h
    simp only [validateEdit] at h
    repeat' split at h
    all_goals simp_all
  refine ⟨h1, ?_, ?_⟩
  · unfold handleEditSave
    rw [h1]
    rfl
  · intro b1 b2 b3 b4 b5 b6 b7
    cases language <;>
      simp [validateEdit, lang_beq_en_en, lang_beq_ja_en, b1, b2, b3, b4, b5, b6, b7, hd]

/-- An edit form whose date "June 5" fails the shape regex. -/
def juneForm : EditForm :=
  ⟨1, "Oak", "Tree", "オーク", "木", "June 5", "Quercus robur", "Garden",
   some "oak.png"⟩

/-- Claim C3 amended witness: the "June 5" form is rejected with the
date-format message and no PUT is issued. -/
theorem C3_date_shape_validation_witness :
    validateEdit juneForm Lang.en = some "Invalid date format (YYYY-MM-DD)." ∧
    handleEditSave juneForm Lang.en = none := by
  have h := C3_date_shape_validation juneForm Lang.en (by decide) (by decide)
  exact ⟨h.2.2 (by decide) (by decide) (by decide) (by decide) (by decide)
    (by decide) (by decide), h.2.1⟩

/-- Claim C4: create validation passes exactly when the six text fields are
non-blank and an image is chosen; the first missing field (in the code's
check order) is reported with a message identifying it; and a failed
validation short-circuits `handleSubmit` before any network call. -/
theorem C4_add_validation (f : AddForm) :
    (validateAdd f = none ↔
      (blank f.plant_name_en = false ∧ blank f.plant_class_en = false ∧
       blank f.plant_name_ja = false ∧ blank f.plant_class_ja = false ∧
       blank f.botanical_name = false ∧ blank f.location = false ∧
       f.image_path.isSome = true)) ∧
    (validateAdd f ≠ none → handleSubmit f = none) ∧
    (blank f.plant_name_en = true →
      validateAdd f = some "English name is required.") ∧
    (blank f.plant_name_en = false → blank f.plant_class_en = true →
      validateAdd f = some "English class is required.") ∧
    (blank f.plant_name_en = false → blank f.plant_class_en = false →
      blank f.plant_name_ja = true →
      validateAdd f = some "Japanese name is required.") ∧
    (blank f.plant_name_en = false → blank f.plant_class_en = false →
      blank f.plant_name_ja = false → blank f.plant_class_ja = true →
      validateAdd f = some "Japanese class is required.") ∧
    (blank f.plant_name_en = false → blank f.plant_class_en = false →
      blank f.plant_name_ja = false → blank f.plant_class_ja = false →
      blank f.botanical_name = true →
      validateAdd f = some "Botanical name is required.") ∧
    (blank f.plant_name_en = false → blank f.plant_class_en = false →
      blank f.plant_name_ja = false → blank f.plant_class_ja = false →
      blank f.botanical_name = false → blank f.location = true →
      validateAdd f = some "Location is required.") ∧
    (blank f.plant_name_en = false → blank f.plant_class_en = false →
      blank f.plant_name_ja = false → blank f.plant_class_ja = false →
      blank f.botanical_name = false → blank f.location = false →
      f.image_path = none → validateAdd f = some "Image is required.") := by
  refine ⟨?_, ?_, ?_, ?_, ?_, ?_, ?_, ?_, ?_⟩
  · cases h1 : blank f.plant_name_en <;>
    cases h2 : blank f.plant_class_en <;>
    cases h3 : blank f.plant_name_ja <;>
    cases h4 : blank f.plant_class_ja <;>
    cases h5 : blank f.botanical_name <;>
    cases h6 : blank f.location <;>
    cases h7 : f.image_path <;>
      simp [validateAdd, h1, h2, h3, h4, h5, h6, h7]
  · intro h
    unfold handleSubmit
    rw [Option.ne_none_iff_isSome.mp h]
    rfl
  · intro h1
    simp [validateAdd, h1]
  · intro h1 h2
    simp [validateAdd, h1, h2]
  · intro h1 h2 h3
    simp [validateAdd, h1, h2, h3]
  · intro h1 h2 h3 h4
    simp [validateAdd, h1, h2, h3, h4]
  · intro h1 h2 h3 h4 h5
    simp [validateAdd, h1, h2, h3, h4, h5]
  · intro h1 h2 h3 h4 h5 h6
    simp [validateAdd, h1, h2, h3, h4, h5, h6]
  · intro h1 h2 h3 h4 h5 h6 h7
    simp [validateAdd, h1, h2, h3, h4, h5, h6, h7]

/-- An add form whose English name is whitespace only. -/
def blankNameAdd : AddForm :=
  ⟨"   ", "Tree", "オーク", "木", "", "Quercus robur", "Garden", some "oak.png"⟩

/-- Claim C4 witness: the blank English name is reported and no POST is
issued. -/
theorem C4_add_validation_witness :
    validateAdd blankNameAdd = some "English name is required." ∧
    handleSubmit blankNameAdd = none := by
  have h := C4_add_validation blankNameAdd
  exact ⟨h.2.2.1 (by decide), h.2.1 (by decide)⟩

/-- Claim C5: only the active language's name/class fields are required and
editable.  Validation under one language never reads the other language's
pair (it is invariant under replacing them); a blank active-language name or
class fails validation; and the modal's change handler is the identity on
state for an inactive-language input. -/
theorem C5_language_scoping (f : EditForm) (x y v : String) (key : EditField) :
    (validateEdit { f with plant_name_ja := x, plant_class_ja := y } Lang.en
        = validateEdit f Lang.en) ∧
    (validateEdit { f with plant_name_en := x, plant_class_en := y } Lang.ja
        = validateEdit f Lang.ja) ∧
    (blank f.plant_name_en = true → (validateEdit f Lang.en).isSome = true) ∧
    (blank f.plant_class_en = true → (validateEdit f Lang.en).isSome = true) ∧
    (blank f.plant_name_ja = true → (validateEdit f Lang.ja).isSome = true) ∧
    (blank f.plant_class_ja = true → (validateEdit f Lang.ja).isSome = true) ∧
    editFieldChange Lang.en Lang.ja key v f = f ∧
    editFieldChange Lang.ja Lang.en key v f = f := by
  refine ⟨rfl, rfl, ?_, ?_, ?_, ?_, rfl, rfl⟩
  · intro h
    simp [validateEdit, lang_beq_en_en, h]
  · intro h
    cases hn : blank f.plant_name_en <;>
      simp [validateEdit, lang_beq_en_en, hn, h]
  · intro h
    simp [validateEdit, lang_beq_ja_en, h]
  · intro h
    cases hn : blank f.plant_name_ja <;>
      simp [validateEdit, lang_beq_ja_en, hn, h]

/-- An edit form whose English name is whitespace only. -/
def blankNameEdit : EditForm :=
  ⟨1, " ", "Tree", "オーク", "木", "", "Quercus robur", "Garden", some "oak.png"⟩

/-- Claim C5 witness: with English active, the blank English name fails
validation, and typing into the Japanese name input changes nothing. -/
theorem C5_language_scoping_witness :
    (validateEdit blankNameEdit Lang.en).isSome = true ∧
    editFieldChange Lang.en Lang.ja EditField.name "樫" blankNameEdit = blankNameEdit := by
  have h := C5_language_scoping blankNameEdit "x" "y" "樫" EditField.name
  exact ⟨h.2.2.1 (by decide), h.2.2.2.2.2.2.1⟩

/-- Claim C9: on a cache miss with a failing translation-service call,
`translateToJa` returns the original English text unchanged and writes
nothing to the cache; the failure is absorbed (the function returns
normally) rather than propagated to the caller. -/
theorem C9_translate_fallback (cache : String → Option String) (text : String)
    (h : cache text = none) :
    translateToJa cache (.error ()) text = (text, []) := by
  unfold translateToJa
  rw [h]

/-- Claim C9 witness: with an empty cache and a failing service, "Garden" is
returned unchanged. -/
theorem C9_translate_fallback_witness :
    translateToJa (fun _ => none) (.error ()) "Garden" = ("Garden", []) :=
  C9_translate_fallback (fun _ => none) "Garden" rfl

theorem optMatch_eq_true {o : Option String} {q : String} :
    optMatch o q = true ↔ ∃ s, o = some s ∧ includesCI s q = true := by
  cases o <;> simp [optMatch]

/-- Claim C10: the displayed list contains exactly the fetched plants whose
active-language name or active-language class contains the query
case-insensitively; a plant with neither active-language field defined is
excluded even for the empty query. -/
theorem C10_search_filter (plants : List PlantView) (language : Lang)
    (q : String) (p : PlantView) :
    (p ∈ filteredPlants plants language q ↔
      p ∈ plants ∧
        ((∃ s, nameOf p language = some s ∧ includesCI s q = true) ∨
         (∃ s, classOf p language = some s ∧ includesCI s q = true))) ∧
    (nameOf p language = none → classOf p language = none →
      p ∉ filteredPlants plants language "") := by
  constructor
  · simp only [filteredPlants, List.mem_filter, Bool.or_eq_true, optMatch_eq_true]
  · intro h1 h2 hmem
    simp only [filteredPlants, List.mem_filter, Bool.or_eq_true, optMatch_eq_true,
      h1, h2] at hmem
    rcases hmem.2 with ⟨s, hs, _⟩ | ⟨s, hs, _⟩ <;> cases hs

/-- A fetched record defining no English name and no English class. -/
def namelessPlant : PlantView := ⟨7, none, none, none, none⟩

/-- Claim C10 witness: the record with neither English field defined is
filtered out even though the query is empty. -/
theorem C10_search_filter_witness :
    namelessPlant ∉ filteredPlants [namelessPlant] Lang.en "" :=
  (C10_search_filter [namelessPlant] Lang.en "" namelessPlant).2 rfl rfl

end PlantTracker
